import Mathlib

/-!
Verification of the Stylus primitives demo contract (`src/lib.rs`).

The contract is a single storage-backed entity `StylusPrimitivesDemo` with one
persisted field `owner : StorageAddress` and eight public methods.  We embed it
shallowly: the host environment (`vm()`) is a record of the facts the methods
read, addresses and 256-bit words are natural numbers, byte strings are lists
of naturals below 256, and each Rust method becomes a Lean function over the
environment and the explicit contract state.  The keccak-256 function used by
`crypto::keccak` and by the `sol!` macro's event selector is implemented in
full so that digests can be computed inside Lean.
-/

/-! ## Keccak-256 (the hash behind `crypto::keccak` and the event selector) -/

/-- Rotate a 64-bit lane (a natural number below `2^64`) left by `n` bits. -/
def rotl64 (x n : Nat) : Nat :=
  ((x <<< n) ||| (x >>> (64 - n))) % 2 ^ 64

/-- Read lane `(x, y)` of a 25-lane Keccak state stored row-major. -/
def lane (A : List Nat) (x y : Nat) : Nat :=
  A.getD (x + 5 * y) 0

/-- The 8-bit LFSR of FIPS 202 after `t` steps from the seed `0x01`: each step
doubles the register and, when the top bit was set, folds in `0x71`. -/
def keccakLFSR : Nat → Nat
  | 0 => 1
  | t + 1 =>
    let R := keccakLFSR t
    if 128 ≤ R then ((R <<< 1) % 256) ^^^ 0x71 else R <<< 1

/-- Round constant `i` of Keccak-f[1600]: LFSR output bit `7 * i + j` lands at
lane bit `2 ^ j - 1`, for `j < 7`. -/
def keccakRCAt (i : Nat) : Nat :=
  (List.range 7).foldl
    (fun acc j => acc ^^^ ((keccakLFSR (7 * i + j) % 2) <<< (2 ^ j - 1))) 0

/-- The 24 round constants of Keccak-f[1600]. -/
def keccakRC : List Nat :=
  (List.range 24).map keccakRCAt

/-- The lane the rho/pi walk of FIPS 202 visits at step `t`, starting from
`(1, 0)` and moving by `(x, y) ↦ (y, 2x + 3y)`. -/
def rhoPos : Nat → Nat × Nat
  | 0 => (1, 0)
  | t + 1 =>
    let p := rhoPos t
    (p.2, (2 * p.1 + 3 * p.2) % 5)

/-- The rotation offsets of the rho step, indexed by `x + 5 * y`: lane `(0,0)`
keeps offset 0, and the lane visited at walk step `t` rotates by the
triangular number `(t + 1)(t + 2) / 2` modulo the lane width. -/
def rhoOffsets : List Nat :=
  (List.range 25).map (fun i =>
    (List.range 24).foldl
      (fun acc t =>
        let p := rhoPos t
        if p.1 + 5 * p.2 = i then ((t + 1) * (t + 2) / 2) % 64 else acc) 0)

/-- The theta step of Keccak-f[1600]. -/
def thetaStep (A : List Nat) : List Nat :=
  let C := fun x =>
    lane A x 0 ^^^ lane A x 1 ^^^ lane A x 2 ^^^ lane A x 3 ^^^ lane A x 4
  let D := fun x => C ((x + 4) % 5) ^^^ rotl64 (C ((x + 1) % 5)) 1
  (List.range 25).map (fun i => A.getD i 0 ^^^ D (i % 5))

/-- The combined rho and pi steps of Keccak-f[1600]. -/
def rhoPiStep (A : List Nat) : List Nat :=
  (List.range 25).map (fun j =>
    let xp := j % 5
    let yp := j / 5
    let y := xp
    let x := (3 * (yp + 2 * xp)) % 5
    rotl64 (lane A x y) (rhoOffsets.getD (x + 5 * y) 0))

/-- The chi step of Keccak-f[1600]. -/
def chiStep (B : List Nat) : List Nat :=
  (List.range 25).map (fun j =>
    let x := j % 5
    let y := j / 5
    lane B x y ^^^
      ((lane B ((x + 1) % 5) y ^^^ 0xFFFFFFFFFFFFFFFF) &&& lane B ((x + 2) % 5) y))

/-- The iota step: fold the round constant into lane `(0, 0)`. -/
def iotaStep (rc : Nat) (A : List Nat) : List Nat :=
  match A with
  | [] => []
  | a0 :: rest => (a0 ^^^ rc) :: rest

/-- One round of Keccak-f[1600]. -/
def keccakRound (A : List Nat) (rc : Nat) : List Nat :=
  iotaStep rc (chiStep (rhoPiStep (thetaStep A)))

/-- The full Keccak-f[1600] permutation: 24 rounds. -/
def keccakF (A : List Nat) : List Nat :=
  keccakRC.foldl keccakRound A

/-- Interpret 8 consecutive bytes of a block, little-endian, as one lane. -/
def laneOfBytes (block : List Nat) (i : Nat) : Nat :=
  (List.range 8).foldl (fun acc j => acc + (block.getD (8 * i + j) 0 <<< (8 * j))) 0

/-- Absorb one 136-byte rate block into the state and permute. -/
def absorbBlock (A block : List Nat) : List Nat :=
  keccakF ((List.range 25).map (fun i =>
    A.getD i 0 ^^^ (if i < 17 then laneOfBytes block i else 0)))

/-- Absorb `n` successive 136-byte blocks of `bytes`. -/
def absorbN : Nat → List Nat → List Nat → List Nat
  | 0, A, _ => A
  | n + 1, A, bytes => absorbN n (absorbBlock A (bytes.take 136)) (bytes.drop 136)

/-- Squeeze the first 32 bytes (4 lanes, little-endian) out of the state. -/
def squeeze256 (A : List Nat) : List Nat :=
  (List.range 32).map (fun i => (A.getD (i / 8) 0 >>> (8 * (i % 8))) % 256)

/-- Keccak-256 of a byte string: pad with the `0x01 .. 0x80` domain padding to a
multiple of the 136-byte rate, absorb, and squeeze 32 bytes. -/
def keccak256 (msg : List Nat) : List Nat :=
  let q := 136 - msg.length % 136
  let padded :=
    if q = 1 then msg ++ [0x81]
    else msg ++ 0x01 :: (List.replicate (q - 2) 0 ++ [0x80])
  squeeze256 (absorbN (padded.length / 136) (List.replicate 25 0) padded)

/-! ## The `EmitMe` event and its ABI encoding (`sol!` macro output) -/

/-- The 32-byte big-endian representation of a 256-bit word. -/
def beBytes32 (v : Nat) : List Nat :=
  (List.range 32).map (fun i => (v >>> (8 * (31 - i))) % 256)

/-- The event `EmitMe(address indexed sender, uint256 value)` declared through
the `sol!` macro: `sender` is an address (a natural below `2^160`), `value` a
256-bit word. -/
structure EmitMe where
  sender : Nat
  value : Nat
deriving DecidableEq

/-- The ASCII bytes of the event signature `EmitMe(address,uint256)`. -/
def emitMeSignatureBytes : List Nat :=
  "EmitMe(address,uint256)".data.map Char.toNat

/-- `SIGNATURE_HASH` of `EmitMe`: the keccak-256 selector of the signature. -/
def emitMeSelector : List Nat :=
  keccak256 emitMeSignatureBytes

/-- `SolEvent::encode_topics_raw` as generated by the `sol!` macro for
`EmitMe`: given the length of the caller-supplied output buffer, it returns
`Err(Overrun)` when the buffer holds fewer words than the topic count (2),
and otherwise fills the first two words with the selector and the 32-byte
left-padded `sender`. -/
def encode_topics_raw (e : EmitMe) (outLen : Nat) : Except Unit (List (List Nat)) :=
  if outLen < 2 then Except.error ()
  else Except.ok [emitMeSelector, beBytes32 e.sender]

/-- `SolEvent::encode_data` for `EmitMe`: the ABI encoding of the non-indexed
body, i.e. the 32-byte big-endian `value`. -/
def encode_data (e : EmitMe) : List Nat :=
  beBytes32 e.value

/-! ## Host environment, contract state, and the eight public methods -/

/-- The facts the host (`self.vm()`) supplies to the contract during one call.
`balances` is the host's live `balance-of` map and `inkPrice` the current
gas-to-ink conversion rate. -/
structure Env where
  msg_sender : Nat
  msg_value : Nat
  contract_address : Nat
  balances : Nat → Nat
  tx_origin : Nat
  inkPrice : Nat

/-- The persisted contract state: the single `owner : StorageAddress` field of
`StylusPrimitivesDemo` (the zero address until set). -/
structure State where
  owner : Nat
deriving DecidableEq

/-- One invocation of the host's log-emission facility
(`vm().emit_log(input, num_topics)`): the raw input bytes and the topic count
reported to the host. -/
structure LogCall where
  input : List Nat
  numTopics : Nat
deriving DecidableEq

/-- Method 1, `initialize` (the name itself is a Lean keyword, hence the
suffix): read the host-reported caller and store it into `owner`. -/
def initializeOwner (env : Env) (s : State) : State :=
  { s with owner := env.msg_sender }

/-- Method 2, `get_msg_value`: the native value attached to the call. -/
def get_msg_value (env : Env) : Nat :=
  env.msg_value

/-- Methods 3 and 4, `get_contract_balance`: look up the contract's own
address, then its balance with the host. -/
def get_contract_balance (env : Env) : Nat :=
  let this_contract := env.contract_address
  env.balances this_contract

/-- Method 5, `get_tx_origin`: the originator of the transaction. -/
def get_tx_origin (env : Env) : Nat :=
  env.tx_origin

/-- Modelled from the spec: the host's `gas_to_ink` conversion is host-side
code absent from this repository; §4.2 of the spec describes it as applying
the host's current gas-to-execution-unit conversion rate to the quantity, a
deterministic monotonic u64-valued unit conversion, so it is modelled as
multiplication by the rate, saturating at the u64 maximum. -/
def gas_to_ink (rate gas : Nat) : Nat :=
  min (gas * rate) (2 ^ 64 - 1)

/-- Method 6, `convert_gas`: hand `gas` to the host's conversion. -/
def convert_gas (env : Env) (gas : Nat) : Nat :=
  gas_to_ink env.inkPrice gas

/-- Method 7, `emit_my_event`, transliterated line by line: build the event
from the host-reported caller and value, call `encode_topics_raw` on the
freshly created empty `vec![]` (whose length is 0; a slice cannot grow, so the
vector would still be empty afterwards), abort with the `.expect` panic
message when encoding fails, otherwise hand `emit_log` the data bytes and the
vector's length as topic count.  The result is the list of log calls made, or
the panic message. -/
def emit_my_event (env : Env) : Except String (List LogCall) :=
  let event : EmitMe := { sender := env.msg_sender, value := env.msg_value }
  let topics : List (List Nat) := []
  match encode_topics_raw event topics.length with
  | Except.error _ => Except.error "failed to encode topics"
  | Except.ok _ =>
    let data := encode_data event
    Except.ok [{ input := data, numTopics := topics.length }]

/-- Method 8, `hash_preimage`: `crypto::keccak` of the argument bytes. -/
def hash_preimage (preimage : List Nat) : List Nat :=
  keccak256 preimage

/-- Helper method `get_owner`: read the persisted `owner` field. -/
def get_owner (s : State) : Nat :=
  s.owner

/-! ## The uniform call interface -/

/-- One invocation of a public method of `StylusPrimitivesDemo`, with its call
arguments. -/
inductive MethodCall where
  | initializeOwner
  | get_msg_value
  | get_contract_balance
  | get_tx_origin
  | convert_gas (gas : Nat)
  | emit_my_event
  | hash_preimage (preimage : List Nat)
  | get_owner
deriving DecidableEq

/-- The value a method returns across the call boundary. -/
inductive RetVal where
  | unit
  | u256 (v : Nat)
  | u64 (v : Nat)
  | addr (a : Nat)
  | bytes32 (b : List Nat)
deriving DecidableEq

/-- The outcome of one external call: the returned value (or the abort
message), the contract state after the call, and the log records handed to the
host.  The host discards all effects on abort, which the error branches below
reflect by returning the pre-call state and no logs. -/
structure CallResult where
  ret : Except String RetVal
  state : State
  logs : List LogCall

/-- Dispatch one external call to the corresponding method body. -/
def callMethod (env : Env) (s : State) : MethodCall → CallResult
  | MethodCall.initializeOwner =>
    { ret := Except.ok RetVal.unit, state := initializeOwner env s, logs := [] }
  | MethodCall.get_msg_value =>
    { ret := Except.ok (RetVal.u256 (get_msg_value env)), state := s, logs := [] }
  | MethodCall.get_contract_balance =>
    { ret := Except.ok (RetVal.u256 (get_contract_balance env)), state := s, logs := [] }
  | MethodCall.get_tx_origin =>
    { ret := Except.ok (RetVal.addr (get_tx_origin env)), state := s, logs := [] }
  | MethodCall.convert_gas gas =>
    { ret := Except.ok (RetVal.u64 (convert_gas env gas)), state := s, logs := [] }
  | MethodCall.emit_my_event =>
    match emit_my_event env with
    | Except.error msg => { ret := Except.error msg, state := s, logs := [] }
    | Except.ok logs => { ret := Except.ok RetVal.unit, state := s, logs := logs }
  | MethodCall.hash_preimage preimage =>
    { ret := Except.ok (RetVal.bytes32 (hash_preimage preimage)), state := s, logs := [] }
  | MethodCall.get_owner =>
    { ret := Except.ok (RetVal.addr (get_owner s)), state := s, logs := [] }

/-- A concrete environment used to instantiate the universally quantified
theorems below on explicit inputs. -/
def envW : Env :=
  { msg_sender := 1, msg_value := 5, contract_address := 2,
    balances := fun _ => 7, tx_origin := 3, inkPrice := 10 }

/-- A concrete environment whose caller is the zero address and whose call
attaches no value. -/
def envZ : Env :=
  { msg_sender := 0, msg_value := 0, contract_address := 2,
    balances := fun _ => 7, tx_origin := 3, inkPrice := 10 }

/-- A concrete pre-call state with a nonzero owner. -/
def stateW : State :=
  { owner := 4 }

/-- The well-known keccak-256 digest of the empty byte string. -/
def keccakEmptyDigest : List Nat :=
  [0xc5, 0xd2, 0x46, 0x01, 0x86, 0xf7, 0x23, 0x3c,
   0x92, 0x7e, 0x7d, 0xb2, 0xdc, 0xc7, 0x03, 0xc0,
   0xe5, 0x00, 0xb6, 0x53, 0xca, 0x82, 0x27, 0x3b,
   0x7b, 0xfa, 0xd8, 0x04, 0x5d, 0x85, 0xa4, 0x70]

/-! ## Theorems for the claims -/

/-- Claim C1 (code bug): far from handing the host one well-formed `EmitMe`
record, every call to `emit_my_event` aborts with the panic message of the
`.expect`: the topic buffer passed to `encode_topics_raw` is the freshly
created empty vector, whose length 0 is below the topic count 2, so encoding
returns an overrun error, the call aborts, and no log record at all reaches
the host. -/
theorem C1_emit_my_event_aborts (env : Env) (s : State) :
    callMethod env s MethodCall.emit_my_event =
      { ret := Except.error "failed to encode topics", state := s, logs := [] } :=
  rfl

/-- Claim C2 (code bug): the claim's conditional structure is right — the only
failure point of `emit_my_event` is topic encoding, and on failure the call
aborts with no record emitted — but the clause "topic encoding cannot fail"
is false of the code: with the zero-length buffer the method supplies,
`encode_topics_raw` fails on every input, so every call aborts. -/
theorem C2_topic_encoding_always_fails (env : Env) (s : State) :
    encode_topics_raw { sender := env.msg_sender, value := env.msg_value } 0 =
      Except.error () ∧
    (callMethod env s MethodCall.emit_my_event).ret =
      Except.error "failed to encode topics" ∧
    (callMethod env s MethodCall.emit_my_event).logs = [] :=
  ⟨rfl, rfl, rfl⟩

/-- Claim C3: `initialize` stores the host-reported caller into `owner`
unconditionally, so a following `get_owner` returns that caller, and after a
second call by a different caller `get_owner` returns the most recent one. -/
theorem C3_initialize_overwrites_owner (env1 env2 : Env) (s : State) :
    get_owner (initializeOwner env1 s) = env1.msg_sender ∧
    get_owner (initializeOwner env2 (initializeOwner env1 s)) = env2.msg_sender :=
  ⟨rfl, rfl⟩

/-- Claim C4: the frame property of the persisted `owner` field — every public
method other than `initialize` leaves it unchanged. -/
theorem C4_only_initialize_mutates_owner (env : Env) (s : State) (m : MethodCall)
    (h : m ≠ MethodCall.initializeOwner) :
    (callMethod env s m).state.owner = s.owner := by
  cases m <;> first | rfl | exact absurd rfl h

/-- Witness for C4: `get_owner` leaves a concrete state's owner unchanged. -/
theorem C4_witness :
    (callMethod envW stateW MethodCall.get_owner).state.owner = stateW.owner :=
  C4_only_initialize_mutates_owner envW stateW MethodCall.get_owner (by decide)

set_option maxRecDepth 100000 in
/-- Claim C5: `hash_preimage` is total with a 32-byte result, deterministic,
and maps the empty byte string to the well-known keccak-256 empty digest
`c5d2460186f7233c927e7db2dcc703c0e500b653ca82273b7bfad8045d85a470`. -/
theorem C5_hash_preimage_keccak :
    (∀ p : List Nat, (hash_preimage p).length = 32) ∧
    (∀ p q : List Nat, p = q → hash_preimage p = hash_preimage q) ∧
    hash_preimage [] = keccakEmptyDigest := by
  refine ⟨?_, ?_, ?_⟩
  · intro p
    simp [hash_preimage, keccak256, squeeze256]
  · intro p q h
    rw [h]
  · decide

/-- Witness for C5: determinism and the empty digest at concrete inputs. -/
theorem C5_witness :
    hash_preimage [1] = hash_preimage [1] ∧ hash_preimage [] = keccakEmptyDigest :=
  ⟨C5_hash_preimage_keccak.2.1 [1] [1] rfl, C5_hash_preimage_keccak.2.2⟩

/-- Claim C6: `get_contract_balance` returns exactly the host-reported balance
of the contract's own address, succeeds, and changes no state and emits no
log. -/
theorem C6_contract_balance_live (env : Env) (s : State) :
    callMethod env s MethodCall.get_contract_balance =
      { ret := Except.ok (RetVal.u256 (env.balances env.contract_address)),
        state := s, logs := [] } :=
  rfl

/-- Claim C7: under the spec's model of the host conversion (a fixed rate
applied to the quantity), `convert_gas 0 = 0` for every rate and `convert_gas`
is monotone in its input for a fixed rate. -/
theorem C7_convert_gas_monotone (env : Env) (g1 g2 : Nat) (h : g1 ≤ g2) :
    convert_gas env 0 = 0 ∧ convert_gas env g1 ≤ convert_gas env g2 := by
  constructor
  · simp [convert_gas, gas_to_ink]
  · exact min_le_min (Nat.mul_le_mul_right _ h) le_rfl

/-- Witness for C7: zero and monotonicity at concrete gas amounts. -/
theorem C7_witness :
    convert_gas envW 0 = 0 ∧ convert_gas envW 2 ≤ convert_gas envW 5 :=
  C7_convert_gas_monotone envW 2 5 (by decide)

/-- Claim C8: `get_msg_value` and `get_tx_origin` are pure pass-throughs of
the host facts — they succeed, change no state, emit no log — and a call with
no attached value returns 0. -/
theorem C8_env_fact_passthrough (env : Env) (s : State) :
    callMethod env s MethodCall.get_msg_value =
      { ret := Except.ok (RetVal.u256 env.msg_value), state := s, logs := [] } ∧
    callMethod env s MethodCall.get_tx_origin =
      { ret := Except.ok (RetVal.addr env.tx_origin), state := s, logs := [] } ∧
    (env.msg_value = 0 →
      callMethod env s MethodCall.get_msg_value =
        { ret := Except.ok (RetVal.u256 0), state := s, logs := [] }) :=
  ⟨rfl, rfl, fun h => by simp [callMethod, get_msg_value, h]⟩

/-- Witness for C8: a value-free call observes `get_msg_value` = 0. -/
theorem C8_witness :
    callMethod envZ stateW MethodCall.get_msg_value =
      { ret := Except.ok (RetVal.u256 0), state := stateW, logs := [] } :=
  (C8_env_fact_passthrough envZ stateW).2.2 rfl

/-- Claim C9: the observable behaviour of `emit_my_event` is independent of
the persisted `owner` field — two runs from states with different owners but
the same host facts return the same outcome and hand the host the same log
calls, and neither run changes its state. -/
theorem C9_emit_independent_of_owner (env : Env) (s1 s2 : State)
    (_h : s1.owner ≠ s2.owner) :
    (callMethod env s1 MethodCall.emit_my_event).ret
      = (callMethod env s2 MethodCall.emit_my_event).ret ∧
    (callMethod env s1 MethodCall.emit_my_event).logs
      = (callMethod env s2 MethodCall.emit_my_event).logs ∧
    (callMethod env s1 MethodCall.emit_my_event).state = s1 ∧
    (callMethod env s2 MethodCall.emit_my_event).state = s2 :=
  ⟨rfl, rfl, rfl, rfl⟩

/-- Witness for C9: two concrete states with different owners. -/
theorem C9_witness :
    (callMethod envW ⟨0⟩ MethodCall.emit_my_event).ret
      = (callMethod envW stateW MethodCall.emit_my_event).ret ∧
    (callMethod envW ⟨0⟩ MethodCall.emit_my_event).logs
      = (callMethod envW stateW MethodCall.emit_my_event).logs ∧
    (callMethod envW ⟨0⟩ MethodCall.emit_my_event).state = ⟨0⟩ ∧
    (callMethod envW stateW MethodCall.emit_my_event).state = stateW :=
  C9_emit_independent_of_owner envW ⟨0⟩ stateW (by decide)

/-- Claim C10: `initialize` stores the host-reported caller verbatim with no
validation, so when the caller is the zero address the resulting state is
indistinguishable through `get_owner` from the never-initialized default. -/
theorem C10_initialize_no_validation (env : Env) (s : State) :
    initializeOwner env s = { owner := env.msg_sender } ∧
    (env.msg_sender = 0 →
      get_owner (initializeOwner env s) = get_owner { owner := 0 }) := by
  refine ⟨rfl, fun h => ?_⟩
  simp [initializeOwner, get_owner, h]

/-- Witness for C10: the zero-address caller yields the default owner. -/
theorem C10_witness :
    get_owner (initializeOwner envZ stateW) = get_owner { owner := 0 } :=
  (C10_initialize_no_validation envZ stateW).2 rfl
